import Mathlib

/-!
# Verification of the JTC-COD mutation pipeline and undo engine

Shallow embedding of the repository's core control flow:

* the code-agent edge function (intent gate, relevance selection with
  deterministic fallback, bounded context loading, safety validation of
  critical files, sequential per-file commit loop, response assembly);
* the undo-commit edge function (parent lookup, per-file revert loop);
* the AI backend adapter with retry/backoff and provider fallback
  (the second serve function bundled in the undo-commit source file).

External effects (HTTP calls to the GitHub content API and to the
generation backends, and the platform JSON parser) are modelled as
oracle fields of an environment record; every call the pipeline makes to
the GitHub content API is additionally recorded in an explicit trace so
that "no write happens" claims are statements about that trace.
-/

set_option autoImplicit false

namespace JtcCod

/-! ## String helpers

JavaScript string primitives used by the source, re-implemented over
`List Char` so that they evaluate by kernel reduction. -/

/-- JS `String.prototype.trim` (common whitespace). -/
def jsTrim (s : String) : String :=
  String.mk (((s.data.dropWhile Char.isWhitespace).reverse.dropWhile Char.isWhitespace).reverse)

/-- JS `String.prototype.toLowerCase` (ASCII behaviour). -/
def jsToLower (s : String) : String :=
  String.mk (s.data.map Char.toLower)

/-- JS `String.prototype.slice(0, n)`. -/
def jsTake (s : String) (n : Nat) : String :=
  String.mk (s.data.take n)

/-- JS `String.prototype.endsWith`. -/
def jsEndsWith (s suffix : String) : Bool :=
  suffix.data.isSuffixOf s.data

/-- `list.join(sep)` from JS. -/
def joinWith (sep : String) : List String → String
  | [] => ""
  | [x] => x
  | x :: xs => x ++ sep ++ joinWith sep xs

/-- `content.replace(/\n/g, "")` from the undo engine. -/
def stripNewlines (s : String) : String :=
  String.mk (s.data.filter (fun c => c ≠ '\n'))

/-- JS truthiness coercion `x || null` on an optional string:
`undefined`, `null` and `""` all collapse to `null`. -/
def orNull : Option String → Option String
  | some s => if s.length = 0 then none else some s
  | none => none

/-- JS truthiness of an optional string (`!x` is true for missing or empty). -/
def truthyStr : Option String → Bool
  | some s => !(s.length = 0 : Bool)
  | none => false

/-- Drop one leading newline, if present: models the optional `\n?` at the
end of the code-fence regexes. -/
def dropNl : List Char → List Char
  | [] => []
  | c :: r => if c = '\n' then r else c :: r

/-- One global-replace pass deleting every occurrence of `tok` (plus an
optional trailing newline): left-to-right scan, scanning resumes after
each deleted match, exactly like a JS global regex replace with an empty
replacement.  The fuel argument (initially the list length, which always
suffices since every step consumes at least one character) makes the
recursion structural. -/
def stripFenceAux (tok : List Char) : Nat → List Char → List Char
  | _, [] => []
  | 0, cs => cs
  | fuel + 1, c :: rest =>
    if tok.isPrefixOf (c :: rest) then
      stripFenceAux tok fuel (dropNl ((c :: rest).drop tok.length))
    else
      c :: stripFenceAux tok fuel rest

/-- `raw.replace(/```json\n?/g, "")` -/
def stripJsonFence (cs : List Char) : List Char :=
  stripFenceAux ("```json".data) cs.length cs

/-- `.replace(/```\n?/g, "")` -/
def stripBareFence (cs : List Char) : List Char :=
  stripFenceAux ("```".data) cs.length cs

/-- `raw.replace(/```json\n?/g, "").replace(/```\n?/g, "").trim()` -/
def stripFences (s : String) : String :=
  jsTrim (String.mk (stripBareFence (stripJsonFence s.data)))

/-! ## Data model -/

/-- One entry of the recursive git tree listing (`path` / `type`). -/
structure TreeEntry where
  path : String
  type : String
deriving Repr, DecidableEq

/-- Result of a successful `getFileContent`: decoded text plus the
current blob sha (the optimistic-concurrency revision marker). -/
structure LoadedFile where
  path : String
  content : String
  sha : String
deriving Repr, DecidableEq

/-- One entry of the generator's `changes` array.  Both fields may be
absent in the parsed JSON, hence `Option`. -/
structure Change where
  path : Option String
  content : Option String
deriving Repr, DecidableEq

/-- The generator's parsed JSON object
`\x7bexplanation, changes, commit_message\x7d`. -/
structure Parsed where
  explanation : Option String
  changes : Option (List Change)
  commit_message : Option String
deriving Repr, DecidableEq

/-- A call the pipeline issues against the GitHub content API.  `putContent`
is the single-file create-or-update write; `deleteContent` the single-file
delete; the rest are reads. -/
inductive GhCall where
  | getRepo
  | getTree (branch : String)
  | getCommit
  | getContent (path : String)
  | getContentAt (path : String) (ref : String)
  | putContent (path : String) (content : String) (sha : Option String)
  | deleteContent (path : String) (sha : String)
deriving Repr, DecidableEq

/-- The JSON body of a successful pipeline response. -/
structure AgentResponse where
  response : String
  files_changed : List String
  commit_sha : Option String
  commit_message : Option String
deriving Repr, DecidableEq

/-- A pipeline run ends in a 200 body or in an error status response
(429/402 surfaced directly, everything thrown caught as 500). -/
inductive PipelineResult where
  | success (r : AgentResponse)
  | httpError (status : Nat) (msg : String)
deriving Repr, DecidableEq

/-- Outcome of the `commitFile` PUT: `ok` carries `result.commit?.sha`,
`err` the HTTP status of the failed write. -/
inductive CommitOutcome where
  | ok (commitSha : Option String)
  | err (status : Nat)
deriving Repr, DecidableEq

/-- Oracle for the chat-mode backend call. -/
structure ChatEnv where
  ok : Bool
  status : Nat
  content : Option String

/-- Environment of one code-agent run.  Each field is the observable
outcome of one external interaction of the source (`fetch` results,
`Deno.env`, `JSON.parse`); pure repository logic is *not* in here. -/
structure GenEnv where
  /-- `Deno.env.get("LOVABLE_API_KEY")` is set. -/
  apiKeyPresent : Bool
  /-- the intent-classification HTTP call succeeded -/
  intentOk : Bool
  /-- `intentData.choices?.[0]?.message?.content` -/
  intentContent : Option String
  /-- chat-mode backend call outcome -/
  chat : ChatEnv
  /-- `GET /repos/:owner/:name` succeeded -/
  repoOk : Bool
  /-- `data.default_branch` -/
  defaultBranch : Option String
  /-- the recursive tree listing call succeeded -/
  treeOk : Bool
  /-- `tree.tree` (absent field modelled as `none`) -/
  treeEntries : Option (List TreeEntry)
  /-- the relevance-selection backend call succeeded -/
  selOk : Bool
  /-- `selData.choices?.[0]?.message?.content` -/
  selContent : Option String
  /-- `JSON.parse` at the selection site: `none` models a parse throw -/
  parseList : String → Option (List String)
  /-- the change-generation backend call succeeded -/
  codeOk : Bool
  /-- status of the failed change-generation call -/
  codeStatus : Nat
  /-- `codeData.choices?.[0]?.message?.content` -/
  codeContent : Option String
  /-- `JSON.parse` at the generation site: `none` models a parse throw -/
  parseGen : String → Option Parsed
  /-- composite outcome of `getFileContent`: `none` when the GET failed or
  the payload was not base64; otherwise the decoded file with its sha -/
  fileGet : String → Option LoadedFile
  /-- outcome of the `commitFile` PUT for a path, content and sha -/
  commit : String → String → Option String → CommitOutcome

/-! ## Code-agent pipeline -/

/-- The fixed critical-file list of the safety validator. -/
def criticalFiles : List String :=
  ["package.json", "index.html", "tsconfig.json", "vite.config.ts",
   "vite.config.js", "tailwind.config.ts", "tailwind.config.js"]

/-- The fixed extension allow-list of the deterministic fallback selection. -/
def codeExts : List String :=
  [".html", ".css", ".js", ".jsx", ".ts", ".tsx", ".json", ".py",
   ".vue", ".svelte", ".scss"]

/-- The safety-validator test on one change:
`criticalFiles.includes(change.path) && (!change.content || change.content.trim().length < 10)`. -/
def offendsCritical (c : Change) : Bool :=
  (match c.path with
   | some p => criticalFiles.contains p
   | none => false)
  &&
  (match c.content with
   | none => true
   | some s => (jsTrim s).length < 10)

/-- Commit-loop skip test: `if (!change.path || !change.content) continue`. -/
def changeValid (c : Change) : Bool :=
  truthyStr c.path && truthyStr c.content

/-- `tree.tree?.filter(f => f.type === "blob")?.map(f => f.path) || []` -/
def blobPaths : Option (List TreeEntry) → List String
  | some l => (l.filter (fun e => e.type = "blob")).map (fun e => e.path)
  | none => []

/-- The deterministic fallback selection:
`allFiles.filter(f => codeExts.some(ext => f.endsWith(ext))).slice(0, 12)`. -/
def fallbackSelection (allFiles : List String) : List String :=
  (allFiles.filter (fun f => codeExts.any (fun ext => jsEndsWith f ext))).take 12

/-- Step 2 of the code branch: parse the selection backend's reply, fall
back on empty or unparsable output, then keep only paths that exist in
the tree. -/
def selectStage (env : GenEnv) (allFiles : List String) : List String :=
  let selected0 : List String :=
    if env.selOk then
      ((env.parseList (stripFences ((env.selContent).getD ("[]"))))).getD []
    else []
  let selected1 :=
    if selected0.length = 0 then fallbackSelection allFiles else selected0
  selected1.filter (fun f => allFiles.contains f)

/-- Step 3: load each selected path; a file enters the context only when
its fetch succeeded and its decoded length is strictly below 20000. -/
def loadStage (fileGet : String → Option LoadedFile) (selected : List String) :
    List LoadedFile :=
  (selected.filterMap fileGet).filter (fun f => f.content.length < 20000)

/-- `fileContents.map(f => ...).join("\n\n")` -/
def assembleContext (files : List LoadedFile) : String :=
  joinWith ("\n\n") (files.map (fun f => "=== " ++ f.path ++ " ===\n" ++ f.content))

/-- The message of the error thrown by a failed `commitFile` PUT. -/
def commitFileError (path : String) (status : Nat) : String :=
  "Falha ao salvar " ++ path ++ " no GitHub (status " ++ toString status ++ ")"

/-- The safety validator's refusal text, naming the offending path. -/
def safetyRefusal (p : String) : String :=
  "⚠️ Não posso modificar " ++ p ++
    " dessa forma - é um arquivo crítico do projeto. Me diz exatamente o que quer mudar nele?"

/-- Accumulated outcome of the sequential commit loop. -/
structure CommitOut where
  lastSha : Option String
  filesChanged : List String
  errors : List String
  calls : List GhCall
deriving Repr, DecidableEq

/-- Step 6: the sequential per-file commit loop.  For each valid change it
re-fetches the fresh sha, issues the PUT, and on success overwrites
`lastCommitSha` and appends the path to `filesChanged`; on failure it
appends `path: message` to `errors` and continues.  `last` threads the
running `lastCommitSha`. -/
def commitLoop (env : GenEnv) : List Change → Option String → CommitOut
  | [], last => ⟨last, [], [], []⟩
  | c :: rest, last =>
    if changeValid c then
      let p := (c.path).getD ("")
      let ct := (c.content).getD ("")
      let sha := orNull ((env.fileGet p).map (fun f => f.sha))
      let callsHere := [GhCall.getContent p, GhCall.putContent p ct sha]
      match env.commit p ct sha with
      | .ok csha =>
        let r := commitLoop env rest (orNull csha)
        ⟨r.lastSha, p :: r.filesChanged, r.errors, callsHere ++ r.calls⟩
      | .err status =>
        let r := commitLoop env rest last
        ⟨r.lastSha, r.filesChanged,
          (p ++ ": " ++ commitFileError p status) :: r.errors,
          callsHere ++ r.calls⟩
    else
      commitLoop env rest last

/-- `errors.map(e => "• " + e).join("\n")` -/
def bulletList (errors : List String) : String :=
  joinWith ("\n") (errors.map (fun e => "• " ++ e))

/-- The success part of the final response text (explanation, updated-files
line, and the short commit link when a commit sha was recorded). -/
def successPart (parsed : Parsed) (st : CommitOut) : String :=
  let base := (orNull parsed.explanation).getD ("Pronto, modificações aplicadas!")
  let base := base ++ "\n\n✅ Arquivos atualizados: " ++ joinWith (", ") st.filesChanged
  match st.lastSha with
  | some s => base ++ "\n🔗 Commit: `" ++ jsTake s 7 ++ "`"
  | none => base

/-- The hard-failure response used when no file was committed, suggesting a
token permission check. -/
def hardFailureText (errors : List String) : String :=
  "❌ Não consegui fazer as modificações.\n\n" ++ bulletList errors ++
    "\n\nVerifica se o token tem a permissão \"repo\" habilitada."

/-- The build-response block after the commit loop. -/
def assembleResponse (parsed : Parsed) (st : CommitOut) : String :=
  let r1 := if st.filesChanged.length > 0 then successPart parsed st else ""
  let r2 :=
    if st.errors.length > 0 then
      if st.filesChanged.length = 0 then
        hardFailureText st.errors
      else
        r1 ++ "\n\n⚠️ Alguns arquivos falharam:\n" ++ bulletList st.errors
    else r1
  if r2.length = 0 then "Algo deu errado, não consegui processar. Tenta de novo?" else r2

/-- Wrap a thrown `Error` into the top-level catch response of the serve
handler (`status: 500`, message prefixed with `Erro: `). -/
def throwResult (msg : String) : PipelineResult :=
  .httpError 500 ("Erro: " ++ msg)

/-- The whole code-agent serve handler: result plus the trace of GitHub
content-API calls it issued. -/
def codeAgent (env : GenEnv) : PipelineResult × List GhCall :=
  if !env.apiKeyPresent then (throwResult ("LOVABLE_API_KEY not configured"), []) else
  if !env.intentOk then (throwResult ("Erro ao processar sua mensagem"), []) else
  let intent := jsToLower (jsTrim ((env.intentContent).getD ("")))
  if intent ≠ "code" then
    -- CHAT MODE: reply conversationally; no GitHub call at all.
    (if !env.chat.ok then
      if env.chat.status = 429 then
        .httpError 429 "Muitas requisições, espera um pouquinho! 😅"
      else if env.chat.status = 402 then
        .httpError 402 "Créditos esgotados 😢"
      else throwResult ("Erro na IA")
    else
      .success ⟨(env.chat.content).getD ("Desculpa, não entendi. Pode repetir?"),
        [], none, none⟩, [])
  else
    -- CODE MODE
    if !env.repoOk then
      (throwResult ("Não consegui acessar o repositório. Verifique se o token é válido."),
        [.getRepo])
    else
    let branch := (orNull env.defaultBranch).getD ("main")
    if !env.treeOk then
      (throwResult ("Não consegui ler a árvore do repositório na branch " ++ branch),
        [.getRepo, .getTree branch])
    else
    let allFiles := blobPaths env.treeEntries
    let selected := selectStage env allFiles
    let calls0 : List GhCall :=
      [.getRepo, .getTree branch] ++ selected.map GhCall.getContent
    let fileContents := loadStage env.fileGet selected
    let _fileContext := assembleContext fileContents
    if !env.codeOk then
      (if env.codeStatus = 429 then
        .httpError 429 "Muitas requisições, espera um pouquinho!"
      else if env.codeStatus = 402 then
        .httpError 402 "Créditos esgotados."
      else throwResult ("Erro na IA ao gerar mudanças"), calls0)
    else
    match env.parseGen (stripFences ((env.codeContent).getD (""))) with
    | none =>
      (.success ⟨"Desculpa, tive um problema ao processar. Tenta de novo com mais detalhes? 😅",
        [], none, none⟩, calls0)
    | some parsed =>
      let changes := (parsed.changes).getD []
      if changes.length = 0 then
        (.success ⟨(orNull parsed.explanation).getD
            ("Não identifiquei nenhuma mudança necessária. Pode detalhar melhor o que quer?"),
          [], none, none⟩, calls0)
      else
        match changes.find? offendsCritical with
        | some c =>
          (.success ⟨safetyRefusal ((c.path).getD ("")), [], none, none⟩, calls0)
        | none =>
          let st := commitLoop env changes none
          (.success ⟨assembleResponse parsed st, st.filesChanged, st.lastSha,
            parsed.commit_message⟩, calls0 ++ st.calls)

/-! ## Undo engine -/

/-- One entry of `commitData.files`: the file's status in the commit and
its path. -/
structure CommitFileEntry where
  status : String
  filename : String
deriving Repr, DecidableEq

/-- Environment of one undo run.  `currentSha` is the sha carried by a
fresh `GET /contents/:path` (absent when that GET fails, e.g. the file
does not currently exist); `parentContent` is the base64 `content` of
`GET /contents/:path?ref=parent` (absent when that GET fails). -/
structure UndoEnv where
  /-- `GET /commits/:sha` succeeded -/
  commitOk : Bool
  /-- shas of `commitData.parents` -/
  parents : List String
  /-- `commitData.files` (absent modelled as `none`) -/
  files : Option (List CommitFileEntry)
  currentSha : String → Option String
  parentContent : String → String → Option String

/-- Result of the undo serve handler. -/
inductive UndoResult where
  | ok (filesReverted : List String)
  | error (status : Nat) (msg : String)
deriving Repr, DecidableEq

/-- Per-file revert step. `added` files are deleted at the freshly
fetched sha; any other status re-fetches the parent content and the
current sha and issues the PUT.  A failed fetch silently skips the file
(its own DELETE/PUT responses are not even checked). -/
def undoFile (env : UndoEnv) (parentSha : String) (f : CommitFileEntry) :
    List String × List GhCall :=
  if f.status = "added" then
    match env.currentSha f.filename with
    | some sha =>
      ([f.filename], [.getContent f.filename, .deleteContent f.filename sha])
    | none => ([], [.getContent f.filename])
  else
    match env.parentContent f.filename parentSha with
    | some b64 =>
      (match env.currentSha f.filename with
       | some sha =>
         ([f.filename],
          [.getContentAt f.filename parentSha, .getContent f.filename,
           .putContent f.filename (stripNewlines b64) (some sha)])
       | none => ([], [.getContentAt f.filename parentSha, .getContent f.filename]))
    | none => ([], [.getContentAt f.filename parentSha])

/-- The sequential per-file revert loop (paths reverted, calls issued). -/
def undoLoop (env : UndoEnv) (parentSha : String) :
    List CommitFileEntry → List String × List GhCall
  | [] => ([], [])
  | f :: rest =>
    let here := undoFile env parentSha f
    let later := undoLoop env parentSha rest
    (here.1 ++ later.1, here.2 ++ later.2)

/-- The undo-commit serve handler: fetch the commit, require a parent,
then best-effort revert each touched file. -/
def undoCommit (env : UndoEnv) : UndoResult × List GhCall :=
  if !env.commitOk then
    (.error 500 "Could not fetch commit details", [.getCommit])
  else
    match orNull env.parents.head? with
    | none => (.error 500 "Cannot revert: no parent commit found", [.getCommit])
    | some parentSha =>
      let r := undoLoop env parentSha ((env.files).getD [])
      (.ok r.1, GhCall.getCommit :: r.2)

/-! ## Generation backend adapter (`callAi` / `callLovableAi`) -/

/-- Observable events of the backend adapter: each primary attempt, each
backoff wait (with its delay in ms), and each fallback call. -/
inductive AiEvent where
  | primaryCall (attempt : Nat)
  | wait (ms : Nat)
  | fallbackCall
deriving Repr, DecidableEq

/-- Outcome of one primary-backend attempt. -/
inductive AiAttempt where
  | ok (data : String)
  | status (code : Nat)
deriving Repr, DecidableEq

/-- Outcome of the fallback (Lovable gateway) call. -/
inductive FallbackRes where
  | ok (data : String)
  | fail (status : Nat)
deriving Repr, DecidableEq

/-- Environment of the adapter: outcome of the n-th primary attempt and
of the fallback call. -/
structure AiEnv where
  lovableKeyPresent : Bool
  primary : Nat → AiAttempt
  fallback : FallbackRes

/-- Result of `callAi`: the parsed reply, or a tagged error
`\x7bstatus, message\x7d` as thrown by the source. -/
inductive AiResult where
  | ok (data : String)
  | error (status : Nat) (msg : String)
deriving Repr, DecidableEq

/-- `callLovableAi`: one call to the operator-provisioned gateway. -/
def callLovableAi (env : AiEnv) : AiResult × List AiEvent :=
  if !env.lovableKeyPresent then
    (.error 500 "Fallback AI não configurado", [])
  else
    match env.fallback with
    | .ok d => (.ok d, [.fallbackCall])
    | .fail s =>
      if s = 429 then
        (.error 429 "Limite de requisições atingido. Tente novamente em alguns segundos.",
          [.fallbackCall])
      else if s = 402 then
        (.error 402 "Créditos de IA esgotados.", [.fallbackCall])
      else
        (.error 500 "Erro no fallback de IA", [.fallbackCall])

/-- `const maxRetries = 3` -/
def maxRetries : Nat := 3

/-- The retry loop body of `callAi`: `attempt` is the loop counter, `fuel`
the remaining iterations (`maxRetries - attempt`).  On a 429 before the
last attempt it waits `2^(attempt+1) * 1000` ms and retries; on a 429 at
the last attempt it falls back with no further wait; 401/403 and other
statuses throw immediately. -/
def callAiGo (env : AiEnv) (attempt : Nat) : Nat → AiResult × List AiEvent
  | 0 => (.error 500 "Erro inesperado na IA", [])
  | fuel + 1 =>
    match env.primary attempt with
    | .ok d => (.ok d, [.primaryCall attempt])
    | .status s =>
      if s = 429 then
        if attempt < maxRetries - 1 then
          let w := 2 ^ (attempt + 1) * 1000
          let r := callAiGo env (attempt + 1) fuel
          (r.1, .primaryCall attempt :: .wait w :: r.2)
        else
          let r := callLovableAi env
          (r.1, .primaryCall attempt :: r.2)
      else if s = 401 ∨ s = 403 then
        (.error 401 "Chave API inválida. Verifique nas configurações do perfil.",
          [.primaryCall attempt])
      else
        (.error 500 "Erro na IA", [.primaryCall attempt])

/-- `callAi`: up to `maxRetries` primary attempts, then fallback. -/
def callAi (env : AiEnv) : AiResult × List AiEvent :=
  callAiGo env 0 maxRetries

/-! ## Observation helpers -/

/-- Is this GitHub call a write (PUT)? -/
def isPutCall : GhCall → Bool
  | .putContent _ _ _ => true
  | _ => false

/-- Is this GitHub call a delete? -/
def isDeleteCall : GhCall → Bool
  | .deleteContent _ _ => true
  | _ => false

/-- No write or delete appears in the trace. -/
def noWriteCalls (calls : List GhCall) : Bool :=
  calls.all (fun c => !isPutCall c && !isDeleteCall c)

/-- Number of PUT calls in a trace. -/
def putCount (calls : List GhCall) : Nat :=
  (calls.filter isPutCall).length

/-- Did the run end in an HTTP error response? -/
def resultIsError : PipelineResult → Bool
  | .success _ => false
  | .httpError _ _ => true

/-- Does the response body carry `files_changed: []` and
`commit_sha: null`?  Error responses carry neither field. -/
def carriesEmptyChange : PipelineResult → Bool
  | .success r => r.files_changed.isEmpty && r.commit_sha.isNone
  | .httpError _ _ => false

/-- The reverted list carried by an undo result (empty on error). -/
def revertedOf : UndoResult → List String
  | .ok l => l
  | .error _ _ => []

/-- The wait delays of an adapter trace, in order. -/
def waitsOf (evs : List AiEvent) : List Nat :=
  evs.filterMap (fun e => match e with | .wait w => some w | _ => none)

/-- Number of fallback calls in an adapter trace. -/
def fallbackCount (evs : List AiEvent) : Nat :=
  (evs.filter (fun e => match e with | .fallbackCall => true | _ => false)).length

/-- Does the undo loop revert this file?  Exactly when the fresh fetches
the source requires for it succeed: the current-sha fetch for an
`added` file; both the parent-content fetch and the current-sha fetch
for every other status. -/
def revertPred (env : UndoEnv) (parentSha : String) (f : CommitFileEntry) : Bool :=
  if f.status = "added" then (env.currentSha f.filename).isSome
  else ((env.parentContent f.filename parentSha).isSome && (env.currentSha f.filename).isSome)

/-! ## Concrete environments used by witnesses and counterexamples -/

/-- A benign baseline environment. -/
def envBase : GenEnv := {
  apiKeyPresent := true
  intentOk := true
  intentContent := some ("code")
  chat := ⟨true, 200, some ("oi")⟩
  repoOk := true
  defaultBranch := some ("main")
  treeOk := true
  treeEntries := some [⟨"package.json", "blob"⟩, ⟨"a.txt", "blob"⟩, ⟨"b.txt", "blob"⟩,
    ⟨"src", "tree"⟩]
  selOk := true
  selContent := some ("[]")
  parseList := fun _ => none
  codeOk := true
  codeStatus := 200
  codeContent := some ("x")
  parseGen := fun _ => none
  fileGet := fun _ => none
  commit := fun _ _ _ => .err 500
}

/-- Conversational utterance, chat backend healthy. -/
def envChatOk : GenEnv := { envBase with intentContent := some ("oi tudo bem?") }

/-- Conversational utterance, chat backend rate-limited (429). -/
def envChat429 : GenEnv :=
  { envBase with intentContent := some ("oi tudo bem?"), chat := ⟨false, 429, none⟩ }

/-- A generated change blanking the critical file `package.json`. -/
def badChange : Change := ⟨some ("package.json"), some ("")⟩

/-- A generated change set containing the critical-file blanking edit. -/
def parsedBad : Parsed := ⟨some ("apaguei"), some [⟨some ("a.txt"), some ("hello")⟩, badChange],
  some ("msg")⟩

/-- Environment whose generator proposes the critical-file blanking set. -/
def envSafety : GenEnv := { envBase with parseGen := fun _ => some parsedBad }

/-- An ordinary generated edit to `a.txt`. -/
def changeA : Change := ⟨some ("a.txt"), some ("hello")⟩

/-- An ordinary generated edit to `b.txt`. -/
def changeB : Change := ⟨some ("b.txt"), some ("world")⟩

/-- The generated change set {editA, editB}. -/
def parsedAB : Parsed := ⟨some ("feito"), some [changeA, changeB], some ("msg")⟩

/-- Environment where committing `a.txt` succeeds and `b.txt` fails (409). -/
def envCommitAB : GenEnv :=
  { envBase with
    parseGen := fun _ => some parsedAB
    fileGet := fun p => if p = "a.txt" then some ⟨"a.txt", "old", "sha-a"⟩ else none
    commit := fun p _ _ => if p = "a.txt" then .ok (some ("c1")) else .err 409 }

/-- Environment where both per-file commits succeed with distinct shas. -/
def envCommit2 : GenEnv :=
  { envBase with
    parseGen := fun _ => some parsedAB
    fileGet := fun p => if p = "a.txt" then some ⟨"a.txt", "old", "sha-a"⟩ else none
    commit := fun p _ _ => if p = "a.txt" then .ok (some ("c1")) else .ok (some ("c2")) }

/-- Environment whose selection backend reply fails to parse. -/
def envSelNone : GenEnv := envBase

/-- A tree of sixteen source files. -/
def tree16 : List TreeEntry :=
  [⟨"f00.ts", "blob"⟩, ⟨"f01.ts", "blob"⟩, ⟨"f02.ts", "blob"⟩, ⟨"f03.ts", "blob"⟩,
   ⟨"f04.ts", "blob"⟩, ⟨"f05.ts", "blob"⟩, ⟨"f06.ts", "blob"⟩, ⟨"f07.ts", "blob"⟩,
   ⟨"f08.ts", "blob"⟩, ⟨"f09.ts", "blob"⟩, ⟨"f10.ts", "blob"⟩, ⟨"f11.ts", "blob"⟩,
   ⟨"f12.ts", "blob"⟩, ⟨"f13.ts", "blob"⟩, ⟨"f14.ts", "blob"⟩, ⟨"f15.ts", "blob"⟩]

/-- The sixteen paths of `tree16`. -/
def paths16 : List String :=
  ["f00.ts", "f01.ts", "f02.ts", "f03.ts", "f04.ts", "f05.ts", "f06.ts", "f07.ts",
   "f08.ts", "f09.ts", "f10.ts", "f11.ts", "f12.ts", "f13.ts", "f14.ts", "f15.ts"]

/-- Environment whose selection backend replies with sixteen valid paths. -/
def envSel16 : GenEnv :=
  { envBase with
    treeEntries := some tree16
    selContent := some ("irrelevant")
    parseList := fun _ => some paths16 }

/-- A commit with no parents (undo must refuse). -/
def undoEnvNoParent : UndoEnv :=
  ⟨true, [], some [⟨"added", "a.txt"⟩], fun _ => none, fun _ _ => none⟩

/-- A commit with a parent that removed `a.txt`: the fresh current-sha
fetch for `a.txt` fails because the file no longer exists. -/
def undoEnvRemoved : UndoEnv :=
  ⟨true, ["p0"], some [⟨"removed", "a.txt"⟩], fun _ => none, fun _ _ => some ("conteudo")⟩

/-- A commit with a parent whose per-file fetches all succeed. -/
def undoEnvHappy : UndoEnv :=
  ⟨true, ["parent0"], some [⟨"added", "new.txt"⟩, ⟨"modified", "a.txt"⟩],
   fun _ => some ("cursha"), fun _ _ => some ("b64data")⟩

/-- A primary backend that is rate-limited on every attempt. -/
def aiEnv429 : AiEnv := ⟨true, fun _ => .status 429, .ok ("resposta")⟩

/-- The file returned for `a.txt` in the context-load witness. -/
def fileA : LoadedFile := ⟨"a.txt", "x", "s"⟩

/-- Fetch oracle of the context-load witness. -/
def fileGetW : String → Option LoadedFile :=
  fun p => if p = "a.txt" then some fileA else none

/-! ## Helper lemmas -/

/-- The fallback gateway call produces exactly one `fallbackCall` event
when the key is configured. -/
theorem callLovableAi_trace (env : AiEnv) (hk : env.lovableKeyPresent = true) :
    (callLovableAi env).2 = [.fallbackCall] := by
  simp only [callLovableAi, hk]
  cases env.fallback with
  | ok d => rfl
  | fail s =>
    simp only [Bool.not_true, Bool.false_eq_true, if_false]
    split <;> [rfl; (split <;> rfl)]

/-- Filtering a truncated filtration of `l` by membership in `l` is the
identity. -/
theorem filter_contains_of_take_filter (l : List String) (p : String → Bool) (n : Nat) :
    (((l.filter p).take n).filter (fun f => l.contains f)) = (l.filter p).take n := by
  apply List.filter_eq_self.mpr
  intro a ha
  have h1 : a ∈ l.filter p := List.take_subset _ _ ha
  have h2 : a ∈ l := List.mem_of_mem_filter h1
  exact List.elem_eq_true_of_mem h2

/-- The pre-commit portion of the GitHub trace consists of reads only. -/
theorem noWriteCalls_reads (b : String) (sel : List String) :
    noWriteCalls ([GhCall.getRepo, GhCall.getTree b] ++ sel.map GhCall.getContent) = true := by
  simp [noWriteCalls, List.all_append, List.all_map, isPutCall, isDeleteCall, Function.comp]

/-- The commit loop on an exhausted change list. -/
theorem commitLoop_nil (env : GenEnv) (last : Option String) :
    commitLoop env [] last = ⟨last, [], [], []⟩ := rfl

/-- One commit-loop step whose PUT succeeds: the path is prepended to the
changed list, `lastCommitSha` is overwritten, and the loop continues. -/
theorem commitLoop_cons_ok (env : GenEnv) (c : Change) (rest : List Change)
    (last : Option String) (p ct : String) (sA : Option String)
    (hp : c.path = some p) (hct : c.content = some ct)
    (hplen : ¬ p.length = 0) (hctlen : ¬ ct.length = 0)
    (hcommit : env.commit p ct (orNull ((env.fileGet p).map (fun f => f.sha))) = .ok sA) :
    commitLoop env (c :: rest) last =
      ⟨(commitLoop env rest (orNull sA)).lastSha,
       p :: (commitLoop env rest (orNull sA)).filesChanged,
       (commitLoop env rest (orNull sA)).errors,
       [GhCall.getContent p,
        GhCall.putContent p ct (orNull ((env.fileGet p).map (fun f => f.sha)))] ++
         (commitLoop env rest (orNull sA)).calls⟩ := by
  have hvalid : changeValid c = true := by
    simp [changeValid, truthyStr, hp, hct, hplen, hctlen]
  simp only [commitLoop, hvalid, if_true, hp, hct, Option.getD_some, hcommit]

/-- One commit-loop step whose PUT fails: the error line is prepended, the
changed list and `lastCommitSha` are untouched, and the loop continues. -/
theorem commitLoop_cons_err (env : GenEnv) (c : Change) (rest : List Change)
    (last : Option String) (p ct : String) (st : Nat)
    (hp : c.path = some p) (hct : c.content = some ct)
    (hplen : ¬ p.length = 0) (hctlen : ¬ ct.length = 0)
    (hcommit : env.commit p ct (orNull ((env.fileGet p).map (fun f => f.sha))) = .err st) :
    commitLoop env (c :: rest) last =
      ⟨(commitLoop env rest last).lastSha,
       (commitLoop env rest last).filesChanged,
       (p ++ ": " ++ commitFileError p st) :: (commitLoop env rest last).errors,
       [GhCall.getContent p,
        GhCall.putContent p ct (orNull ((env.fileGet p).map (fun f => f.sha)))] ++
         (commitLoop env rest last).calls⟩ := by
  have hvalid : changeValid c = true := by
    simp [changeValid, truthyStr, hp, hct, hplen, hctlen]
  simp only [commitLoop, hvalid, if_true, hp, hct, Option.getD_some, hcommit]

/-- Reduction of a run that reaches the commit loop: intent is the edit
token, repo, tree and generation calls succeed, the change set parses
non-empty and no change offends the safety validator. -/
theorem codeAgent_commit_path (env : GenEnv) (parsed : Parsed) (changes : List Change)
    (hkey : env.apiKeyPresent = true)
    (hio : env.intentOk = true)
    (hint : jsToLower (jsTrim ((env.intentContent).getD (""))) = "code")
    (hrepo : env.repoOk = true)
    (htree : env.treeOk = true)
    (hcode : env.codeOk = true)
    (hparse : env.parseGen (stripFences ((env.codeContent).getD (""))) = some parsed)
    (hchanges : parsed.changes = some changes)
    (hne : ¬ (changes.length = 0))
    (hfind : changes.find? offendsCritical = none) :
    codeAgent env =
      (.success ⟨assembleResponse parsed (commitLoop env changes none),
          (commitLoop env changes none).filesChanged,
          (commitLoop env changes none).lastSha,
          parsed.commit_message⟩,
        ([GhCall.getRepo, GhCall.getTree ((orNull env.defaultBranch).getD ("main"))] ++
          (selectStage env (blobPaths env.treeEntries)).map GhCall.getContent) ++
          (commitLoop env changes none).calls) := by
  unfold codeAgent
  simp only [hkey, hio, hint, hrepo, htree, hcode, hparse, hchanges, hfind, hne,
    Bool.not_true, Bool.false_eq_true, if_false, ne_eq, not_true_eq_false, ite_false,
    Option.getD_some, eq_self_iff_true]

/-- Reduction of a run that is stopped by the safety validator. -/
theorem codeAgent_safety_reject (env : GenEnv) (parsed : Parsed) (changes : List Change)
    (c : Change) (p : String)
    (hkey : env.apiKeyPresent = true)
    (hio : env.intentOk = true)
    (hint : jsToLower (jsTrim ((env.intentContent).getD (""))) = "code")
    (hrepo : env.repoOk = true)
    (htree : env.treeOk = true)
    (hcode : env.codeOk = true)
    (hparse : env.parseGen (stripFences ((env.codeContent).getD (""))) = some parsed)
    (hchanges : parsed.changes = some changes)
    (hfind : changes.find? offendsCritical = some c)
    (hpath : c.path = some p) :
    (codeAgent env).1 = .success ⟨safetyRefusal p, [], none, none⟩ ∧
    noWriteCalls (codeAgent env).2 = true := by
  have hne : ¬ (changes.length = 0) := by
    intro h0
    rw [List.length_eq_zero] at h0
    subst h0
    simp [List.find?] at hfind
  unfold codeAgent
  simp only [hkey, hio, hint, hrepo, htree, hcode, hparse, hchanges, hfind, hpath, hne,
    Bool.not_true, Bool.false_eq_true, if_false, ne_eq, not_true_eq_false, ite_false,
    Option.getD_some, eq_self_iff_true]
  exact ⟨trivial, noWriteCalls_reads _ _⟩

/-- A change the safety validator flags has a path on the critical list. -/
theorem offendsCritical_path (c : Change) (h : offendsCritical c = true) :
    ∃ p, c.path = some p ∧ criticalFiles.contains p = true := by
  unfold offendsCritical at h
  rw [Bool.and_eq_true] at h
  obtain ⟨h1, _⟩ := h
  cases hp : c.path with
  | none => rw [hp] at h1; cases h1
  | some p =>
    rw [hp] at h1
    exact ⟨p, rfl, h1⟩

/-- When at least one file succeeded and at least one failed, the final
response is the success text followed by the warning block. -/
theorem assembleResponse_warning (parsed : Parsed) (st : CommitOut)
    (hf : st.filesChanged ≠ []) (he : st.errors ≠ []) :
    assembleResponse parsed st =
      successPart parsed st ++ "\n\n⚠️ Alguns arquivos falharam:\n" ++ bulletList st.errors := by
  have hf0 : st.filesChanged.length > 0 := List.length_pos.mpr hf
  have he0 : st.errors.length > 0 := List.length_pos.mpr he
  unfold assembleResponse
  simp only [if_pos hf0, if_pos he0, if_neg (by omega : ¬ st.filesChanged.length = 0)]
  rw [if_neg ?hne]
  case hne =>
    have hlit : (0:Nat) < ("\n\n⚠️ Alguns arquivos falharam:\n" : String).length := by decide
    rw [String.length_append, String.length_append]
    omega

/-- When no file succeeded and at least one failed, the final response is
the hard-failure text suggesting a token permission check. -/
theorem assembleResponse_hard_failure (parsed : Parsed) (st : CommitOut)
    (hf : st.filesChanged = []) (he : st.errors ≠ []) :
    assembleResponse parsed st = hardFailureText st.errors := by
  have he0 : st.errors.length > 0 := List.length_pos.mpr he
  unfold assembleResponse
  simp only [hf, List.length_nil, gt_iff_lt, Nat.lt_irrefl, if_false, if_pos he0,
    eq_self_iff_true, if_true, ite_true, ite_false]
  rw [if_neg ?hne]
  case hne =>
    have hlit : (0:Nat) < ("❌ Não consegui fazer as modificações.\n\n" : String).length := by
      decide
    unfold hardFailureText
    rw [String.length_append, String.length_append]
    omega

/-- `putCount` distributes over trace concatenation. -/
theorem putCount_append (l1 l2 : List GhCall) :
    putCount (l1 ++ l2) = putCount l1 + putCount l2 := by
  simp [putCount, List.filter_append]

/-- The pre-commit portion of the trace contains no PUT. -/
theorem putCount_reads (b : String) (sel : List String) :
    putCount ([GhCall.getRepo, GhCall.getTree b] ++ sel.map GhCall.getContent) = 0 := by
  simp [putCount, List.filter_append, isPutCall, List.filter_map, Function.comp]

/-- The undo loop reverts exactly the files whose fresh fetches succeed,
in commit order. -/
theorem undoLoop_reverted (env : UndoEnv) (psha : String) (fs : List CommitFileEntry) :
    (undoLoop env psha fs).1 = (fs.filter (revertPred env psha)).map (fun f => f.filename) := by
  induction fs with
  | nil => rfl
  | cons f rest ih =>
    simp only [undoLoop, ih, List.filter_cons]
    by_cases hs : f.status = "added"
    · cases hc : env.currentSha f.filename with
      | some sha => simp [undoFile, revertPred, hs, hc]
      | none => simp [undoFile, revertPred, hs, hc]
    · cases hpar : env.parentContent f.filename psha with
      | some b64 =>
        cases hc : env.currentSha f.filename with
        | some sha => simp [undoFile, revertPred, hs, hpar, hc]
        | none => simp [undoFile, revertPred, hs, hpar, hc]
      | none => simp [undoFile, revertPred, hs, hpar]

/-- Every `added` file whose fresh sha fetch succeeds is deleted at that
sha by the undo loop. -/
theorem undoLoop_delete_mem (env : UndoEnv) (psha : String) (fs : List CommitFileEntry) :
    ∀ f ∈ fs, ∀ sha, f.status = "added" → env.currentSha f.filename = some sha →
      GhCall.deleteContent f.filename sha ∈ (undoLoop env psha fs).2 := by
  induction fs with
  | nil => intro f hf; cases hf
  | cons g rest ih =>
    intro f hf sha hs hc
    rcases List.mem_cons.mp hf with hf | hf
    · subst hf
      simp only [undoLoop]
      apply List.mem_append_left
      simp [undoFile, hs, hc]
    · simp only [undoLoop]
      exact List.mem_append_right _ (ih f hf sha hs hc)

/-- Every non-`added` file whose parent-content and fresh-sha fetches
succeed gets the parent content written back over that sha. -/
theorem undoLoop_put_mem (env : UndoEnv) (psha : String) (fs : List CommitFileEntry) :
    ∀ f ∈ fs, ∀ b64 sha, ¬ f.status = "added" →
      env.parentContent f.filename psha = some b64 →
      env.currentSha f.filename = some sha →
      GhCall.putContent f.filename (stripNewlines b64) (some sha) ∈ (undoLoop env psha fs).2 := by
  induction fs with
  | nil => intro f hf; cases hf
  | cons g rest ih =>
    intro f hf b64 sha hs hpar hc
    rcases List.mem_cons.mp hf with hf | hf
    · subst hf
      simp only [undoLoop]
      apply List.mem_append_left
      simp [undoFile, hs, hpar, hc]
    · simp only [undoLoop]
      exact List.mem_append_right _ (ih f hf b64 sha hs hpar hc)

/-- Whether a run ends in an error response depends only on the
backend/gateway success flags, never on the file-content oracle. -/
theorem resultIsError_codeAgent (env : GenEnv) :
    resultIsError (codeAgent env).1 =
      (!env.apiKeyPresent || (!env.intentOk ||
        (if jsToLower (jsTrim ((env.intentContent).getD (""))) ≠ "code" then !env.chat.ok
         else (!env.repoOk || (!env.treeOk || !env.codeOk))))) := by
  cases hk : env.apiKeyPresent with
  | false => simp [codeAgent, hk, resultIsError, throwResult]
  | true =>
    cases hio : env.intentOk with
    | false => simp [codeAgent, hk, hio, resultIsError, throwResult]
    | true =>
      by_cases hint : jsToLower (jsTrim ((env.intentContent).getD (""))) = "code"
      · cases hrepo : env.repoOk with
        | false => simp [codeAgent, hk, hio, hint, hrepo, resultIsError, throwResult]
        | true =>
          cases htree : env.treeOk with
          | false => simp [codeAgent, hk, hio, hint, hrepo, htree, resultIsError, throwResult]
          | true =>
            cases hcode : env.codeOk with
            | false =>
              simp only [codeAgent, hk, hio, hint, hrepo, htree, hcode, resultIsError,
                throwResult, Bool.not_true, Bool.not_false, Bool.false_eq_true, if_false,
                ite_true, ite_false, ne_eq, not_true_eq_false, eq_self_iff_true, if_true,
                Bool.or_true, Bool.or_false, Bool.true_or, Bool.false_or]
              split
              · rename_i heq
                split at heq
                · cases heq
                · split at heq <;> cases heq
              · rfl
            | true =>
              cases hpg : env.parseGen (stripFences ((env.codeContent).getD (""))) with
              | none =>
                simp [codeAgent, hk, hio, hint, hrepo, htree, hcode, hpg, resultIsError]
              | some parsed =>
                by_cases hlen : ((parsed.changes).getD []).length = 0
                · simp [codeAgent, hk, hio, hint, hrepo, htree, hcode, hpg, hlen, resultIsError]
                · cases hf : ((parsed.changes).getD []).find? offendsCritical with
                  | none =>
                    simp [codeAgent, hk, hio, hint, hrepo, htree, hcode, hpg, hlen, hf,
                      resultIsError]
                  | some c =>
                    simp [codeAgent, hk, hio, hint, hrepo, htree, hcode, hpg, hlen, hf,
                      resultIsError]
      · cases hchat : env.chat.ok with
        | false =>
          simp only [codeAgent, hk, hio, hint, hchat, resultIsError, throwResult,
            Bool.not_true, Bool.not_false, Bool.false_eq_true, if_false, ite_true,
            ite_false, ne_eq, not_false_eq_true, eq_self_iff_true, if_true]
          split
          · rename_i heq
            split at heq
            · cases heq
            · split at heq <;> cases heq
          · rfl
        | true => simp [codeAgent, hk, hio, hint, hchat, resultIsError]

/-! ## Claims -/

/-- Claim C1: for every parsed change set containing at least one change
whose path is on the fixed critical-file list with content missing or of
trimmed length below 10, the pipeline rejects the entire change set: the
GitHub trace contains no write, the response is the refusal naming the
(first) offending path, and the body carries an empty `files_changed`
list and a null commit identifier. -/
theorem C1_critical_file_rejection (env : GenEnv) (parsed : Parsed) (changes : List Change)
    (hkey : env.apiKeyPresent = true)
    (hio : env.intentOk = true)
    (hint : jsToLower (jsTrim ((env.intentContent).getD (""))) = "code")
    (hrepo : env.repoOk = true)
    (htree : env.treeOk = true)
    (hcode : env.codeOk = true)
    (hparse : env.parseGen (stripFences ((env.codeContent).getD (""))) = some parsed)
    (hchanges : parsed.changes = some changes)
    (hbad : ∃ c ∈ changes, offendsCritical c = true) :
    noWriteCalls (codeAgent env).2 = true ∧
    ∃ c p, changes.find? offendsCritical = some c ∧ offendsCritical c = true ∧
      c.path = some p ∧ criticalFiles.contains p = true ∧
      (codeAgent env).1 = .success ⟨safetyRefusal p, [], none, none⟩ := by
  have hsome : (changes.find? offendsCritical).isSome := by
    rw [List.find?_isSome]
    obtain ⟨c, hc, ho⟩ := hbad
    exact ⟨c, hc, ho⟩
  obtain ⟨c, hfind⟩ := Option.isSome_iff_exists.mp hsome
  have hoff : offendsCritical c = true := List.find?_some hfind
  obtain ⟨p, hpath, hcrit⟩ := offendsCritical_path c hoff
  obtain ⟨hres, hnw⟩ := codeAgent_safety_reject env parsed changes c p
    hkey hio hint hrepo htree hcode hparse hchanges hfind hpath
  exact ⟨hnw, c, p, hfind, hoff, hpath, hcrit, hres⟩

/-- Witness for C1: the generator proposes blanking `package.json`; the
run refuses and issues no write. -/
theorem C1_witness :
    noWriteCalls (codeAgent envSafety).2 = true ∧
    ∃ c p, ([⟨some ("a.txt"), some ("hello")⟩, badChange] : List Change).find?
        offendsCritical = some c ∧ offendsCritical c = true ∧
      c.path = some p ∧ criticalFiles.contains p = true ∧
      (codeAgent envSafety).1 = .success ⟨safetyRefusal p, [], none, none⟩ :=
  C1_critical_file_rejection envSafety parsedBad
    [⟨some ("a.txt"), some ("hello")⟩, badChange]
    rfl rfl (by decide) rfl rfl rfl rfl rfl (by decide)

/-- Claim C2 (amended): an utterance whose classification output, after
trimming and lower-casing, differs from the edit token makes the
pipeline take the conversational branch: it issues no GitHub call at all
(in particular no PUT), and whenever the run produces a non-error
response that response carries an empty `files_changed` list and a null
commit identifier.  (As stated the claim fails: when the chat backend
call itself fails, the run returns an error body carrying no
`files_changed` field at all — see the counterexample.) -/
theorem C2_chat_branch_no_write (env : GenEnv)
    (h : jsToLower (jsTrim ((env.intentContent).getD (""))) ≠ "code") :
    noWriteCalls (codeAgent env).2 = true ∧
    (codeAgent env).2 = [] ∧
    (∀ r : AgentResponse, (codeAgent env).1 = .success r →
      r.files_changed = [] ∧ r.commit_sha = none) := by
  have htr : (codeAgent env).2 = [] ∧
      (∀ r : AgentResponse, (codeAgent env).1 = .success r →
        r.files_changed = [] ∧ r.commit_sha = none) := by
    unfold codeAgent
    split
    · exact ⟨rfl, fun r hr => PipelineResult.noConfusion hr⟩
    · split
      · exact ⟨rfl, fun r hr => PipelineResult.noConfusion hr⟩
      · rw [if_pos h]
        split
        · split
          · exact ⟨rfl, fun r hr => PipelineResult.noConfusion hr⟩
          · split
            · exact ⟨rfl, fun r hr => PipelineResult.noConfusion hr⟩
            · exact ⟨rfl, fun r hr => PipelineResult.noConfusion hr⟩
        · refine ⟨rfl, fun r hr => ?_⟩
          cases hr
          exact ⟨rfl, rfl⟩
  exact ⟨by rw [htr.1]; rfl, htr⟩

/-- Counterexample to C2 as stated: a conversational utterance whose chat
backend call is rate-limited yields an error response that does not
carry an empty `files_changed` list with a null commit identifier (it
carries neither field). -/
theorem C2_counterexample :
    (jsToLower (jsTrim ((envChat429.intentContent).getD (""))) ≠ "code") ∧
    carriesEmptyChange (codeAgent envChat429).1 = false := by
  decide

/-- Witness for C2 at a healthy conversational run. -/
theorem C2_witness :
    noWriteCalls (codeAgent envChatOk).2 = true ∧
    (codeAgent envChatOk).2 = [] ∧
    (∀ r : AgentResponse, (codeAgent envChatOk).1 = .success r →
      r.files_changed = [] ∧ r.commit_sha = none) :=
  C2_chat_branch_no_write envChatOk (by decide)

/-- Claim C3 (amended): for a commit with a parent, the Undo Engine
reverts exactly the touched files whose fresh fetches succeed — an
`added` file whose current-sha fetch succeeds is deleted at that sha,
and any other file whose parent-content and current-sha fetches succeed
has the parent content (newlines stripped) written back over that sha —
and the reverted list is exactly those files in order.  Files whose
fetches fail (notably files the commit removed, which have no current
revision) are silently skipped. -/
theorem C3_undo_restores_on_fetch_success (env : UndoEnv) (parentSha : String)
    (hc : env.commitOk = true)
    (hp : orNull env.parents.head? = some parentSha) :
    (undoCommit env).1 =
      .ok ((((env.files).getD []).filter (revertPred env parentSha)).map
        (fun f => f.filename)) ∧
    (∀ f ∈ (env.files).getD [], ∀ sha, f.status = "added" →
      env.currentSha f.filename = some sha →
      GhCall.deleteContent f.filename sha ∈ (undoCommit env).2) ∧
    (∀ f ∈ (env.files).getD [], ∀ b64 sha, ¬ f.status = "added" →
      env.parentContent f.filename parentSha = some b64 →
      env.currentSha f.filename = some sha →
      GhCall.putContent f.filename (stripNewlines b64) (some sha) ∈ (undoCommit env).2) := by
  have hred : undoCommit env =
      (.ok (undoLoop env parentSha ((env.files).getD [])).1,
       GhCall.getCommit :: (undoLoop env parentSha ((env.files).getD [])).2) := by
    simp only [undoCommit, hc, hp, Bool.not_true, Bool.false_eq_true, if_false]
  refine ⟨?_, ?_, ?_⟩
  · rw [hred]
    simp only [undoLoop_reverted]
  · intro f hf sha hs hcur
    rw [hred]
    exact List.mem_cons_of_mem _ (undoLoop_delete_mem env parentSha _ f hf sha hs hcur)
  · intro f hf b64 sha hs hpar hcur
    rw [hred]
    exact List.mem_cons_of_mem _ (undoLoop_put_mem env parentSha _ f hf b64 sha hs hpar hcur)

/-- Counterexample to C3 as stated: a parented commit that removed
`a.txt` is not undone — the fresh current fetch of the removed file
fails, so the file is neither written back nor reported, and the run
performs no write at all. -/
theorem C3_counterexample :
    ¬ ("a.txt" ∈ revertedOf (undoCommit undoEnvRemoved).1) ∧
    noWriteCalls (undoCommit undoEnvRemoved).2 = true := by
  decide

/-- Witness for C3 at a run whose per-file fetches all succeed. -/
theorem C3_witness :
    (undoCommit undoEnvHappy).1 =
      .ok ((((undoEnvHappy.files).getD []).filter (revertPred undoEnvHappy ("parent0"))).map
        (fun f => f.filename)) ∧
    (∀ f ∈ (undoEnvHappy.files).getD [], ∀ sha, f.status = "added" →
      undoEnvHappy.currentSha f.filename = some sha →
      GhCall.deleteContent f.filename sha ∈ (undoCommit undoEnvHappy).2) ∧
    (∀ f ∈ (undoEnvHappy.files).getD [], ∀ b64 sha, ¬ f.status = "added" →
      undoEnvHappy.parentContent f.filename ("parent0") = some b64 →
      undoEnvHappy.currentSha f.filename = some sha →
      GhCall.putContent f.filename (stripNewlines b64) (some sha) ∈
        (undoCommit undoEnvHappy).2) :=
  C3_undo_restores_on_fetch_success undoEnvHappy ("parent0") rfl (by decide)

/-- Claim C4: in an accepted change set \x7bA, B, ...\x7d where A's write
succeeds and B's write fails, A is still committed and reported (its
path heads `files_changed`), B's path with its error message heads the
error list, the loop continues into the remaining edits, the final
response is the success text plus the warning block, and the
hard-failure response suggesting a token permission check is produced
exactly in the all-files-failed situation. -/
theorem C4_partial_failure_isolation (env : GenEnv) (parsed : Parsed) (A B : Change)
    (rest : List Change) (pA ctA pB ctB : String) (sA : Option String) (stB : Nat)
    (hkey : env.apiKeyPresent = true)
    (hio : env.intentOk = true)
    (hint : jsToLower (jsTrim ((env.intentContent).getD (""))) = "code")
    (hrepo : env.repoOk = true)
    (htree : env.treeOk = true)
    (hcode : env.codeOk = true)
    (hparse : env.parseGen (stripFences ((env.codeContent).getD (""))) = some parsed)
    (hchanges : parsed.changes = some (A :: B :: rest))
    (hfind : (A :: B :: rest).find? offendsCritical = none)
    (hpA : A.path = some pA) (hctA : A.content = some ctA)
    (hpAlen : ¬ pA.length = 0) (hctAlen : ¬ ctA.length = 0)
    (hpB : B.path = some pB) (hctB : B.content = some ctB)
    (hpBlen : ¬ pB.length = 0) (hctBlen : ¬ ctB.length = 0)
    (hAok : env.commit pA ctA (orNull ((env.fileGet pA).map (fun f => f.sha))) = .ok sA)
    (hBerr : env.commit pB ctB (orNull ((env.fileGet pB).map (fun f => f.sha))) = .err stB) :
    (codeAgent env).1 = .success
      ⟨assembleResponse parsed (commitLoop env (A :: B :: rest) none),
       (commitLoop env (A :: B :: rest) none).filesChanged,
       (commitLoop env (A :: B :: rest) none).lastSha,
       parsed.commit_message⟩ ∧
    (commitLoop env (A :: B :: rest) none).filesChanged =
      pA :: (commitLoop env rest (orNull sA)).filesChanged ∧
    (commitLoop env (A :: B :: rest) none).errors =
      (pB ++ ": " ++ commitFileError pB stB) :: (commitLoop env rest (orNull sA)).errors ∧
    assembleResponse parsed (commitLoop env (A :: B :: rest) none) =
      successPart parsed (commitLoop env (A :: B :: rest) none) ++
        "\n\n⚠️ Alguns arquivos falharam:\n" ++
        bulletList (commitLoop env (A :: B :: rest) none).errors ∧
    (∀ (parsed' : Parsed) (st' : CommitOut), st'.filesChanged = [] → st'.errors ≠ [] →
      assembleResponse parsed' st' = hardFailureText st'.errors) := by
  have hne : ¬ ((A :: B :: rest).length = 0) := by simp
  have hloopB : commitLoop env (B :: rest) (orNull sA) =
      ⟨(commitLoop env rest (orNull sA)).lastSha,
       (commitLoop env rest (orNull sA)).filesChanged,
       (pB ++ ": " ++ commitFileError pB stB) :: (commitLoop env rest (orNull sA)).errors,
       [GhCall.getContent pB,
        GhCall.putContent pB ctB (orNull ((env.fileGet pB).map (fun f => f.sha)))] ++
         (commitLoop env rest (orNull sA)).calls⟩ :=
    commitLoop_cons_err env B rest (orNull sA) pB ctB stB hpB hctB hpBlen hctBlen hBerr
  have hloopA : commitLoop env (A :: B :: rest) none =
      ⟨(commitLoop env (B :: rest) (orNull sA)).lastSha,
       pA :: (commitLoop env (B :: rest) (orNull sA)).filesChanged,
       (commitLoop env (B :: rest) (orNull sA)).errors,
       [GhCall.getContent pA,
        GhCall.putContent pA ctA (orNull ((env.fileGet pA).map (fun f => f.sha)))] ++
         (commitLoop env (B :: rest) (orNull sA)).calls⟩ :=
    commitLoop_cons_ok env A (B :: rest) none pA ctA sA hpA hctA hpAlen hctAlen hAok
  have hfc : (commitLoop env (A :: B :: rest) none).filesChanged =
      pA :: (commitLoop env rest (orNull sA)).filesChanged := by
    rw [hloopA, hloopB]
  have herr : (commitLoop env (A :: B :: rest) none).errors =
      (pB ++ ": " ++ commitFileError pB stB) :: (commitLoop env rest (orNull sA)).errors := by
    rw [hloopA, hloopB]
  have hmain := codeAgent_commit_path env parsed (A :: B :: rest)
    hkey hio hint hrepo htree hcode hparse hchanges hne hfind
  refine ⟨?_, hfc, herr, ?_,
    fun parsed' st' h1 h2 => assembleResponse_hard_failure parsed' st' h1 h2⟩
  · rw [hmain]
  · apply assembleResponse_warning
    · rw [hfc]; exact List.cons_ne_nil _ _
    · rw [herr]; exact List.cons_ne_nil _ _

/-- Witness for C4: committing `a.txt` succeeds, committing `b.txt`
fails with a 409. -/
theorem C4_witness :
    (codeAgent envCommitAB).1 = .success
      ⟨assembleResponse parsedAB (commitLoop envCommitAB [changeA, changeB] none),
       (commitLoop envCommitAB [changeA, changeB] none).filesChanged,
       (commitLoop envCommitAB [changeA, changeB] none).lastSha,
       parsedAB.commit_message⟩ ∧
    (commitLoop envCommitAB [changeA, changeB] none).filesChanged =
      "a.txt" :: (commitLoop envCommitAB [] (orNull (some ("c1")))).filesChanged ∧
    (commitLoop envCommitAB [changeA, changeB] none).errors =
      ("b.txt" ++ ": " ++ commitFileError ("b.txt") 409) ::
        (commitLoop envCommitAB [] (orNull (some ("c1")))).errors ∧
    assembleResponse parsedAB (commitLoop envCommitAB [changeA, changeB] none) =
      successPart parsedAB (commitLoop envCommitAB [changeA, changeB] none) ++
        "\n\n⚠️ Alguns arquivos falharam:\n" ++
        bulletList (commitLoop envCommitAB [changeA, changeB] none).errors ∧
    (∀ (parsed' : Parsed) (st' : CommitOut), st'.filesChanged = [] → st'.errors ≠ [] →
      assembleResponse parsed' st' = hardFailureText st'.errors) :=
  C4_partial_failure_isolation envCommitAB parsedAB changeA changeB []
    ("a.txt") ("hello") ("b.txt") ("world") (some ("c1")) 409
    rfl rfl (by decide) rfl rfl rfl rfl rfl (by decide)
    rfl rfl (by decide) (by decide) rfl rfl (by decide) (by decide)
    (by decide) (by decide)

/-- Claim C5: when a change set of two edits is applied and both per-file
writes succeed, each edit issues its own PUT (two PUT calls appear in
the trace), but the response carries only the commit identifier of the
last successful write; the first file's commit identifier is discarded,
so the single recorded identifier differs from the identifier of the
first file's commit whenever the two differ. -/
theorem C5_last_commit_sha_only (env : GenEnv) (parsed : Parsed) (A B : Change)
    (pA ctA pB ctB s1 s2 : String)
    (hkey : env.apiKeyPresent = true)
    (hio : env.intentOk = true)
    (hint : jsToLower (jsTrim ((env.intentContent).getD (""))) = "code")
    (hrepo : env.repoOk = true)
    (htree : env.treeOk = true)
    (hcode : env.codeOk = true)
    (hparse : env.parseGen (stripFences ((env.codeContent).getD (""))) = some parsed)
    (hchanges : parsed.changes = some [A, B])
    (hfind : ([A, B] : List Change).find? offendsCritical = none)
    (hpA : A.path = some pA) (hctA : A.content = some ctA)
    (hpAlen : ¬ pA.length = 0) (hctAlen : ¬ ctA.length = 0)
    (hpB : B.path = some pB) (hctB : B.content = some ctB)
    (hpBlen : ¬ pB.length = 0) (hctBlen : ¬ ctB.length = 0)
    (_hs1 : ¬ s1.length = 0) (hs2 : ¬ s2.length = 0)
    (hAok : env.commit pA ctA (orNull ((env.fileGet pA).map (fun f => f.sha))) = .ok (some s1))
    (hBok : env.commit pB ctB (orNull ((env.fileGet pB).map (fun f => f.sha))) = .ok (some s2)) :
    (codeAgent env).1 = .success
      ⟨assembleResponse parsed (commitLoop env [A, B] none),
       [pA, pB], some s2, parsed.commit_message⟩ ∧
    putCount (codeAgent env).2 = 2 ∧
    (s1 ≠ s2 → (some s2 : Option String) ≠ some s1) := by
  have hne : ¬ (([A, B] : List Change).length = 0) := by simp
  have hloopB : commitLoop env [B] (orNull (some s1)) =
      ⟨(commitLoop env [] (orNull (some s2))).lastSha,
       pB :: (commitLoop env [] (orNull (some s2))).filesChanged,
       (commitLoop env [] (orNull (some s2))).errors,
       [GhCall.getContent pB,
        GhCall.putContent pB ctB (orNull ((env.fileGet pB).map (fun f => f.sha)))] ++
         (commitLoop env [] (orNull (some s2))).calls⟩ :=
    commitLoop_cons_ok env B [] (orNull (some s1)) pB ctB (some s2) hpB hctB hpBlen hctBlen hBok
  have hloopA : commitLoop env [A, B] none =
      ⟨(commitLoop env [B] (orNull (some s1))).lastSha,
       pA :: (commitLoop env [B] (orNull (some s1))).filesChanged,
       (commitLoop env [B] (orNull (some s1))).errors,
       [GhCall.getContent pA,
        GhCall.putContent pA ctA (orNull ((env.fileGet pA).map (fun f => f.sha)))] ++
         (commitLoop env [B] (orNull (some s1))).calls⟩ :=
    commitLoop_cons_ok env A [B] none pA ctA (some s1) hpA hctA hpAlen hctAlen hAok
  have hs2n : orNull (some s2) = some s2 := by simp [orNull, hs2]
  have hst : commitLoop env [A, B] none =
      ⟨some s2, [pA, pB], [],
       [GhCall.getContent pA,
        GhCall.putContent pA ctA (orNull ((env.fileGet pA).map (fun f => f.sha))),
        GhCall.getContent pB,
        GhCall.putContent pB ctB (orNull ((env.fileGet pB).map (fun f => f.sha)))]⟩ := by
    rw [hloopA, hloopB]
    simp [commitLoop_nil, hs2n]
  have hmain := codeAgent_commit_path env parsed [A, B]
    hkey hio hint hrepo htree hcode hparse hchanges hne hfind
  refine ⟨?_, ?_, fun hne12 => by simp [hne12.symm]⟩
  · rw [hmain]
    simp only [hst]
  · rw [hmain]
    simp only [hst]
    rw [putCount_append, putCount_reads]
    simp [putCount, isPutCall]

/-- Witness for C5: both commits succeed with shas `c1` then `c2`; the
response records only `c2`. -/
theorem C5_witness :
    (codeAgent envCommit2).1 = .success
      ⟨assembleResponse parsedAB (commitLoop envCommit2 [changeA, changeB] none),
       ["a.txt", "b.txt"], some ("c2"), parsedAB.commit_message⟩ ∧
    putCount (codeAgent envCommit2).2 = 2 ∧
    (("c1" : String) ≠ "c2" → (some ("c2") : Option String) ≠ some ("c1")) :=
  C5_last_commit_sha_only envCommit2 parsedAB changeA changeB
    ("a.txt") ("hello") ("b.txt") ("world") ("c1") ("c2")
    rfl rfl (by decide) rfl rfl rfl rfl rfl (by decide)
    rfl rfl (by decide) (by decide) rfl rfl (by decide) (by decide)
    (by decide) (by decide) (by decide) (by decide)

/-- Claim C6 (amended): three consecutive rate-limit responses from the
primary backend trigger exactly two backoff waits, of 2000 ms and then
4000 ms (the base delay doubling per attempt, hence strictly
increasing); the third rate-limited attempt falls through to exactly one
fallback-backend call with no further wait, and the adapter's result is
the fallback's result.  (As stated the claim fails: the source waits
only before retrying, so three 429s produce two waits, not three — see
the counterexample.) -/
theorem C6_two_waits_then_fallback (env : AiEnv)
    (h0 : env.primary 0 = .status 429) (h1 : env.primary 1 = .status 429)
    (h2 : env.primary 2 = .status 429) (hk : env.lovableKeyPresent = true) :
    (callAi env).2 = [.primaryCall 0, .wait 2000, .primaryCall 1, .wait 4000,
      .primaryCall 2, .fallbackCall] ∧
    waitsOf (callAi env).2 = [2000, 4000] ∧
    fallbackCount (callAi env).2 = 1 ∧
    (2000 < 4000 ∧ 4000 = 2 * 2000) := by
  have htr : (callAi env).2 = [.primaryCall 0, .wait 2000, .primaryCall 1, .wait 4000,
      .primaryCall 2, .fallbackCall] := by
    simp [callAi, callAiGo, maxRetries, h0, h1, h2, callLovableAi_trace env hk]
  refine ⟨htr, ?_, ?_, by omega, by omega⟩
  · rw [htr]; rfl
  · rw [htr]; rfl

/-- Counterexample to C6 as stated: with every primary attempt
rate-limited, the adapter performs two waits, not three. -/
theorem C6_counterexample :
    (waitsOf (callAi aiEnv429).2).length = 2 ∧
    ¬ ((waitsOf (callAi aiEnv429).2).length = 3) := by
  decide

/-- Witness for C6 at the always-rate-limited primary backend. -/
theorem C6_witness :
    (callAi aiEnv429).2 = [.primaryCall 0, .wait 2000, .primaryCall 1, .wait 4000,
      .primaryCall 2, .fallbackCall] ∧
    waitsOf (callAi aiEnv429).2 = [2000, 4000] ∧
    fallbackCount (callAi aiEnv429).2 = 1 ∧
    (2000 < 4000 ∧ 4000 = 2 * 2000) :=
  C6_two_waits_then_fallback aiEnv429 rfl rfl rfl rfl

/-- Claim C7: when the fetched commit metadata has no parent identifier,
the Undo Engine returns the tagged terminal failure and its GitHub trace
contains no write or delete call. -/
theorem C7_no_parent_terminal (env : UndoEnv)
    (hc : env.commitOk = true) (hp : env.parents = []) :
    (undoCommit env).1 = .error 500 "Cannot revert: no parent commit found" ∧
    noWriteCalls (undoCommit env).2 = true := by
  simp [undoCommit, hc, hp, orNull, noWriteCalls, isPutCall, isDeleteCall]

/-- Witness for C7 at a parentless commit. -/
theorem C7_witness :
    (undoCommit undoEnvNoParent).1 = .error 500 "Cannot revert: no parent commit found" ∧
    noWriteCalls (undoCommit undoEnvNoParent).2 = true :=
  C7_no_parent_terminal undoEnvNoParent rfl rfl

/-- Claim C8: when the relevance-selection backend reply is malformed
JSON (after code-fence stripping) or parses to an empty array, the
selected file set equals the deterministic fallback — the tree's blob
paths filtered by the fixed extension allow-list, truncated to at most
12 entries. -/
theorem C8_fallback_selection (env : GenEnv)
    (_hsel : env.selOk = true)
    (hp : env.parseList (stripFences ((env.selContent).getD ("[]"))) = none ∨
          env.parseList (stripFences ((env.selContent).getD ("[]"))) = some []) :
    selectStage env (blobPaths env.treeEntries) =
      ((blobPaths env.treeEntries).filter
        (fun f => codeExts.any (fun ext => jsEndsWith f ext))).take 12 ∧
    (selectStage env (blobPaths env.treeEntries)).length ≤ 12 := by
  have hsel0 : (if env.selOk then
      ((env.parseList (stripFences ((env.selContent).getD ("[]"))))).getD []
    else []) = ([] : List String) := by
    rcases hp with h | h <;> simp [h]
  have hmain : selectStage env (blobPaths env.treeEntries) =
      ((blobPaths env.treeEntries).filter
        (fun f => codeExts.any (fun ext => jsEndsWith f ext))).take 12 := by
    simp only [selectStage, hsel0, List.length_nil, if_pos rfl, fallbackSelection]
    exact filter_contains_of_take_filter _ _ _
  refine ⟨hmain, ?_⟩
  rw [hmain]
  exact List.length_take_le _ _

/-- Witness for C8 at a selection reply that fails to parse. -/
theorem C8_witness :
    selectStage envSelNone (blobPaths envSelNone.treeEntries) =
      ((blobPaths envSelNone.treeEntries).filter
        (fun f => codeExts.any (fun ext => jsEndsWith f ext))).take 12 ∧
    (selectStage envSelNone (blobPaths envSelNone.treeEntries)).length ≤ 12 :=
  C8_fallback_selection envSelNone rfl (Or.inl rfl)

/-- Claim C9 (amended): when the relevance-selection backend reply parses
to a non-empty array, the selected file set is that array filtered to
paths existing as blobs in the tree — every selected path exists in the
tree; no 15-entry bound is enforced in code (it is only requested in the
prompt), so the set can exceed 15.  (As stated the claim fails: see the
counterexample with sixteen selected paths.) -/
theorem C9_selected_paths_exist (env : GenEnv) (l : List String)
    (hsel : env.selOk = true)
    (hp : env.parseList (stripFences ((env.selContent).getD ("[]"))) = some l)
    (hne : l ≠ []) :
    selectStage env (blobPaths env.treeEntries) =
      l.filter (fun f => (blobPaths env.treeEntries).contains f) ∧
    ∀ f ∈ selectStage env (blobPaths env.treeEntries), f ∈ blobPaths env.treeEntries := by
  have hlen : ¬ (l.length = 0) := by
    simpa [List.length_eq_zero] using hne
  have hmain : selectStage env (blobPaths env.treeEntries) =
      l.filter (fun f => (blobPaths env.treeEntries).contains f) := by
    simp [selectStage, hsel, hp, hlen]
  refine ⟨hmain, ?_⟩
  rw [hmain]
  intro f hf
  have := List.of_mem_filter hf
  simpa [List.elem_iff] using this

/-- Counterexample to C9 as stated: a parsed reply of sixteen existing
paths yields a selected set of sixteen entries, exceeding the claimed
15-path bound. -/
theorem C9_counterexample :
    (selectStage envSel16 (blobPaths envSel16.treeEntries)).length = 16 ∧
    ¬ ((selectStage envSel16 (blobPaths envSel16.treeEntries)).length ≤ 15) := by
  decide

/-- Witness for C9 at the sixteen-path selection reply. -/
theorem C9_witness :
    selectStage envSel16 (blobPaths envSel16.treeEntries) =
      paths16.filter (fun f => (blobPaths envSel16.treeEntries).contains f) ∧
    ∀ f ∈ selectStage envSel16 (blobPaths envSel16.treeEntries),
      f ∈ blobPaths envSel16.treeEntries :=
  C9_selected_paths_exist envSel16 paths16 rfl rfl (by decide)

/-- Claim C10: a fetched file enters the assembled context exactly when
its fetch succeeded and its decoded length is strictly below 20000
characters; and whether the whole run fails never depends on the
file-fetch oracle — an individual fetch failure is silently excluded,
not a pipeline failure. -/
theorem C10_context_inclusion :
    (∀ (fileGet : String → Option LoadedFile) (selected : List String) (f : LoadedFile),
      f ∈ loadStage fileGet selected ↔
        ((∃ p ∈ selected, fileGet p = some f) ∧ f.content.length < 20000)) ∧
    (∀ (env : GenEnv) (g g' : String → Option LoadedFile),
      resultIsError (codeAgent { env with fileGet := g }).1 =
      resultIsError (codeAgent { env with fileGet := g' }).1) := by
  constructor
  · intro fileGet selected f
    simp only [loadStage, List.mem_filter, List.mem_filterMap, decide_eq_true_eq]
  · intro env g g'
    rw [resultIsError_codeAgent, resultIsError_codeAgent]

/-- Witness for C10: a small fetched file is included in the context. -/
theorem C10_witness : fileA ∈ loadStage fileGetW ["a.txt"] :=
  (C10_context_inclusion.1 fileGetW ["a.txt"] fileA).mpr
    ⟨⟨"a.txt", by decide, by decide⟩, by decide⟩

end JtcCod
